import Mathlib

/-
Verification of the WSv2 transport (src/lib/transports/ws2.js) of
bitfinex-api-node: a shallow embedding of the protocol-engine state and the
handlers the claims are about, together with theorems settling each claim.

JavaScript values appearing in wire messages are modelled by `WsVal`:
numbers as `Int` (all message fields the handlers inspect are integers;
`undefined` doubles as both `undefined` and `NaN`, which the code only ever
observes through `_isFinite`, `=== 0` and strict equality, where the two
are indistinguishable), strings, nulls and nested arrays.
-/

namespace WSv2

inductive WsVal where
  | num (n : Int)
  | str (s : String)
  | arr (l : List WsVal)
  | null
  | undefined

mutual

def WsVal.decEq : (a b : WsVal) → Decidable (a = b)
  | .num x, .num y =>
    if h : x = y then isTrue (by rw [h]) else isFalse (fun hh => h (by injection hh))
  | .str x, .str y =>
    if h : x = y then isTrue (by rw [h]) else isFalse (fun hh => h (by injection hh))
  | .arr x, .arr y =>
    match WsVal.decEqList x y with
    | isTrue h => isTrue (by rw [h])
    | isFalse h => isFalse (fun hh => h (by injection hh))
  | .null, .null => isTrue rfl
  | .undefined, .undefined => isTrue rfl
  | .num _, .str _ => isFalse (fun h => by cases h)
  | .num _, .arr _ => isFalse (fun h => by cases h)
  | .num _, .null => isFalse (fun h => by cases h)
  | .num _, .undefined => isFalse (fun h => by cases h)
  | .str _, .num _ => isFalse (fun h => by cases h)
  | .str _, .arr _ => isFalse (fun h => by cases h)
  | .str _, .null => isFalse (fun h => by cases h)
  | .str _, .undefined => isFalse (fun h => by cases h)
  | .arr _, .num _ => isFalse (fun h => by cases h)
  | .arr _, .str _ => isFalse (fun h => by cases h)
  | .arr _, .null => isFalse (fun h => by cases h)
  | .arr _, .undefined => isFalse (fun h => by cases h)
  | .null, .num _ => isFalse (fun h => by cases h)
  | .null, .str _ => isFalse (fun h => by cases h)
  | .null, .arr _ => isFalse (fun h => by cases h)
  | .null, .undefined => isFalse (fun h => by cases h)
  | .undefined, .num _ => isFalse (fun h => by cases h)
  | .undefined, .str _ => isFalse (fun h => by cases h)
  | .undefined, .arr _ => isFalse (fun h => by cases h)
  | .undefined, .null => isFalse (fun h => by cases h)

def WsVal.decEqList : (a b : List WsVal) → Decidable (a = b)
  | [], [] => isTrue rfl
  | [], _ :: _ => isFalse (fun h => by cases h)
  | _ :: _, [] => isFalse (fun h => by cases h)
  | a :: as, b :: bs =>
    match WsVal.decEq a b, WsVal.decEqList as bs with
    | isTrue h1, isTrue h2 => isTrue (by rw [h1, h2])
    | isFalse h1, _ => isFalse (fun h => h1 (by injection h))
    | isTrue _, isFalse h2 => isFalse (fun h => h2 (by injection h))

end

instance : DecidableEq WsVal := WsVal.decEq

/-- JS indexing `l[i]` on an array: out-of-range gives `undefined`. -/
def jsIndex (l : List WsVal) (i : Nat) : WsVal :=
  (l[i]?).getD .undefined

/-- JS indexing `v[i]` on an arbitrary value: arrays index their elements,
strings index their characters (as one-character strings), anything else
gives `undefined`. -/
def WsVal.item (v : WsVal) (i : Nat) : WsVal :=
  match v with
  | .arr l => jsIndex l i
  | .str s =>
    match s.data[i]? with
    | some c => .str (String.mk [c])
    | none => .undefined
  | _ => .undefined

/-- JS truthiness test (for the values `WsVal` can hold). -/
def isFalsy : WsVal → Bool
  | .num n => n == 0
  | .str s => s == ""
  | .null => true
  | .undefined => true
  | .arr _ => false

def WsVal.isArr : WsVal → Bool
  | .arr _ => true
  | _ => false

def WsVal.isNum : WsVal → Bool
  | .num _ => true
  | _ => false

def WsVal.asArr : WsVal → List WsVal
  | .arr l => l
  | _ => []

-- JS string coercion `${v}`; array elements are joined with commas, with
-- `null`/`undefined` elements rendered as the empty string.
mutual

def jsToString : WsVal → String
  | .num n => toString n
  | .str s => s
  | .null => "null"
  | .undefined => "undefined"
  | .arr l => String.intercalate "," (jsJoinElems l)

def jsJoinElems : List WsVal → List String
  | [] => []
  | .null :: rest => "" :: jsJoinElems rest
  | .undefined :: rest => "" :: jsJoinElems rest
  | v :: rest => jsToString v :: jsJoinElems rest

end

/-- JS `s.slice(-n)`: the last `n` characters (the whole string when it is
shorter than `n`). -/
def strTakeRight (s : String) (n : Nat) : String :=
  String.mk (s.data.drop (s.data.length - n))

/-- The un-coerced check `v.slice(-4) === '-req'` (ws2.js line 449).  For a
string it compares the last four characters; an array's `slice` yields an
array, never strictly equal to a string.  On numbers/null/undefined the JS
would throw a TypeError (no `slice` method); that point is unreachable for
well-formed notification payloads and is modelled as `false`. -/
def sliceEndsReq : WsVal → Bool
  | .str s => strTakeRight s 4 == "-req"
  | _ => false

/-! ## SequenceAuditor — `_validateMessageSeq` (ws2.js lines 432-495) -/

structure SeqState where
  lastPubSeq : Int
  lastAuthSeq : Int
deriving DecidableEq

/-- The expression `(msg[2] || [])[1] || ''` from `_validateMessageSeq`. -/
def reqTagVal (msg : List WsVal) : WsVal :=
  let e2 := jsIndex msg 2
  let e2v := if isFalsy e2 then .arr [] else e2
  let e21 := e2v.item 1
  if isFalsy e21 then .str "" else e21

/-- `msg[0] === 0 && msg[1] !== 'hb'` — channel-0 (authenticated channel)
non-heartbeat packet. -/
def chanZeroNonHb (msg : List WsVal) : Bool :=
  jsIndex msg 0 == .num 0 && jsIndex msg 1 != .str "hb"

/-- Position of the public sequence number (ws2.js lines 446-452): the
second-to-last slot for channel-0 non-heartbeat packets (other than `n`
packets tagged `*-req`), the last slot otherwise. -/
def pubSeqPos (msg : List WsVal) : Nat :=
  if chanZeroNonHb msg &&
      !(jsIndex msg 1 == .str "n" && sliceEndsReq (reqTagVal msg)) then
    msg.length - 2
  else
    msg.length - 1

/-- The value read as the auth sequence number (ws2.js lines 438-440):
the last slot of channel-0 non-heartbeat packets, `NaN` otherwise. -/
def authSeqValOf (msg : List WsVal) : WsVal :=
  if chanZeroNonHb msg then jsIndex msg (msg.length - 1) else .undefined

/-- Outcome of the public-sequence block (ws2.js lines 443-466): `ret`
means `_validateMessageSeq` returns right there (skipping the auth check),
`cont` means control falls through to the auth-sequence block. -/
inductive PubOutcome where
  | ret (err : Option String) (lastPubSeq : Int)
  | cont (lastPubSeq : Int)
deriving DecidableEq

/-- The public-sequence block of `_validateMessageSeq` (lines 443-466). -/
def pubSeqStep (lastPubSeq : Int) (msg : List WsVal) : PubOutcome :=
  if strTakeRight (jsToString (reqTagVal msg)) 4 != "-req" then
    match jsIndex msg (pubSeqPos msg) with
    | .num seq =>
      if lastPubSeq == -1 then
        .ret none seq
      else if seq != lastPubSeq + 1 then
        .ret (some s!"invalid pub seq #; last {lastPubSeq}, got {seq}") lastPubSeq
      else
        .cont seq
    | _ => .ret none lastPubSeq
  else
    .cont lastPubSeq

/-- The auth-sequence block of `_validateMessageSeq` (lines 468-494). -/
def authSeqStep (lastAuthSeq : Int) (msg : List WsVal) (authSeqV : WsVal) :
    Option String × Int :=
  match authSeqV with
  | .num authSeq =>
    if authSeq == 0 then
      (none, lastAuthSeq)
    else if jsIndex msg 1 == .str "n" then
      (if authSeq != lastAuthSeq then
        some s!"invalid auth seq #, expected no advancement but got {authSeq}"
      else none, lastAuthSeq)
    else if authSeq == lastAuthSeq then
      (some s!"expected auth seq # advancement but got same seq: {authSeq}",
        lastAuthSeq)
    else if lastAuthSeq != -1 && authSeq != lastAuthSeq + 1 then
      (some s!"invalid auth seq #; last {lastAuthSeq}, got {authSeq}",
        lastAuthSeq)
    else
      (none, authSeq)
  | _ => (none, lastAuthSeq)

/-- `_validateMessageSeq(msg)` (ws2.js lines 432-495), as a function of the
`seqAudit` flag and the two stored counters; returns the error (if any)
together with the updated counters. -/
def validateMessageSeq (seqAudit : Bool) (st : SeqState) (v : WsVal) :
    Option String × SeqState :=
  if !seqAudit then (none, st)
  else
    match v with
    | .arr msg =>
      if msg.length == 0 then (none, st)
      else
        match pubSeqStep st.lastPubSeq msg with
        | .ret err p => (err, { st with lastPubSeq := p })
        | .cont p =>
          let r := authSeqStep st.lastAuthSeq msg (authSeqValOf msg)
          (r.1, { lastPubSeq := p, lastAuthSeq := r.2 })
    | _ => (none, st)

/-! ### Helper lemmas for the sequence auditor -/

theorem validateMessageSeq_decomp (st : SeqState) (msg : List WsVal)
    (h : msg ≠ []) :
    validateMessageSeq true st (.arr msg) =
      (match pubSeqStep st.lastPubSeq msg with
       | .ret err p => (err, ⟨p, st.lastAuthSeq⟩)
       | .cont p =>
         ((authSeqStep st.lastAuthSeq msg (authSeqValOf msg)).1,
          ⟨p, (authSeqStep st.lastAuthSeq msg (authSeqValOf msg)).2⟩)) := by
  have hl : (msg.length == 0) = false := by
    simpa using h
  simp only [validateMessageSeq, Bool.not_true, Bool.false_eq_true, if_false, hl]

theorem pubSeqStep_seed (lp : Int) (msg : List WsVal) (v : Int)
    (hreq : strTakeRight (jsToString (reqTagVal msg)) 4 ≠ "-req")
    (hval : jsIndex msg (pubSeqPos msg) = .num v)
    (h : lp = -1) :
    pubSeqStep lp msg = .ret none v := by
  simp [pubSeqStep, hreq, hval, h]

theorem pubSeqStep_adv (lp : Int) (msg : List WsVal) (v : Int)
    (hreq : strTakeRight (jsToString (reqTagVal msg)) 4 ≠ "-req")
    (hval : jsIndex msg (pubSeqPos msg) = .num v)
    (h : lp ≠ -1) (hv : v = lp + 1) :
    pubSeqStep lp msg = .cont v := by
  simp [pubSeqStep, hreq, hval, h, hv]

theorem pubSeqStep_mismatch (lp : Int) (msg : List WsVal) (v : Int)
    (hreq : strTakeRight (jsToString (reqTagVal msg)) 4 ≠ "-req")
    (hval : jsIndex msg (pubSeqPos msg) = .num v)
    (h : lp ≠ -1) (hv : v ≠ lp + 1) :
    ∃ e, pubSeqStep lp msg = .ret (some e) lp := by
  simp [pubSeqStep, hreq, hval, h, hv]

/-- Claim C1: for every inbound array packet carrying a public sequence
number (sequencing enabled): (1) the first observed value seeds the stored
public-sequence counter with no error; (2) a subsequent value equal to the
stored counter + 1 yields no public-sequence error and advances the counter
(the overall result being exactly the auth-sequence outcome, which for
packets outside the authenticated channel is no error at all, clause 3);
(4) any other value yields exactly one ordering error and leaves the
counters unchanged.  "Stored" means a previous value was seeded, i.e. the
counter is non-negative. -/
theorem claim1_public_sequence_audit (st : SeqState) (msg : List WsVal) (v : Int)
    (hne : msg ≠ [])
    (hreq : strTakeRight (jsToString (reqTagVal msg)) 4 ≠ "-req")
    (hval : jsIndex msg (pubSeqPos msg) = .num v) :
    (st.lastPubSeq = -1 →
      validateMessageSeq true st (.arr msg) = (none, ⟨v, st.lastAuthSeq⟩)) ∧
    (0 ≤ st.lastPubSeq → v = st.lastPubSeq + 1 →
      (validateMessageSeq true st (.arr msg)).2.lastPubSeq = v ∧
      (validateMessageSeq true st (.arr msg)).1 =
        (authSeqStep st.lastAuthSeq msg (authSeqValOf msg)).1) ∧
    (chanZeroNonHb msg = false → 0 ≤ st.lastPubSeq → v = st.lastPubSeq + 1 →
      validateMessageSeq true st (.arr msg) = (none, ⟨v, st.lastAuthSeq⟩)) ∧
    (0 ≤ st.lastPubSeq → v ≠ st.lastPubSeq + 1 →
      ∃ e, validateMessageSeq true st (.arr msg) = (some e, st)) := by
  rw [validateMessageSeq_decomp st msg hne]
  refine ⟨fun h => ?_, fun h0 hv => ?_, fun hch h0 hv => ?_, fun h0 hv => ?_⟩
  · rw [pubSeqStep_seed st.lastPubSeq msg v hreq hval h]
  · have hne1 : st.lastPubSeq ≠ -1 := by omega
    rw [pubSeqStep_adv st.lastPubSeq msg v hreq hval hne1 hv]
    exact ⟨rfl, rfl⟩
  · have hne1 : st.lastPubSeq ≠ -1 := by omega
    rw [pubSeqStep_adv st.lastPubSeq msg v hreq hval hne1 hv]
    simp [authSeqValOf, hch, authSeqStep]
  · have hne1 : st.lastPubSeq ≠ -1 := by omega
    obtain ⟨e, he⟩ := pubSeqStep_mismatch st.lastPubSeq msg v hreq hval hne1 hv
    exact ⟨e, by rw [he]⟩

/-- Witness for C1 at the packet `[5, "te", 8]` (channel 5, pub seq in the
last slot) with stored public counter 7: no error, counter advances to 8. -/
theorem claim1_public_sequence_audit_witness :
    ([WsVal.num 5, WsVal.str "te", WsVal.num 8] ≠ ([] : List WsVal)) ∧
    validateMessageSeq true ⟨7, -1⟩
      (.arr [WsVal.num 5, WsVal.str "te", WsVal.num 8]) = (none, ⟨8, -1⟩) :=
  ⟨by decide,
    ((claim1_public_sequence_audit ⟨7, -1⟩
        [WsVal.num 5, WsVal.str "te", WsVal.num 8] 8
        (by decide) (by decide) (by decide)).2.2.1
      (by decide) (by decide) (by decide))⟩

/-- Claim C2: for every non-heartbeat packet on the authenticated channel
(channel 0), with sequencing enabled and the public-sequence block passing
(hypothesis `hpub`), the auth sequence value `w` at the final array
position is validated so: (a) a value of 0 is ignored, no error, counter
unchanged; (b) for a notification packet, a value equal to the stored
counter yields no error, any other value exactly one error, the counter
never moving; (c) for every other packet the first observed value is
accepted and stored, a value equal to the stored counter + 1 advances the
counter with no error, and any other value yields exactly one error with
the counter unchanged. -/
theorem claim2_auth_sequence_audit (st : SeqState) (msg : List WsVal)
    (p w : Int)
    (hne : msg ≠ [])
    (hchan : chanZeroNonHb msg = true)
    (hpub : pubSeqStep st.lastPubSeq msg = .cont p)
    (hw : jsIndex msg (msg.length - 1) = .num w) :
    (w = 0 →
      validateMessageSeq true st (.arr msg) = (none, ⟨p, st.lastAuthSeq⟩)) ∧
    (jsIndex msg 1 = .str "n" → w ≠ 0 →
      (w = st.lastAuthSeq →
        validateMessageSeq true st (.arr msg) = (none, ⟨p, st.lastAuthSeq⟩)) ∧
      (w ≠ st.lastAuthSeq →
        ∃ e, validateMessageSeq true st (.arr msg) =
          (some e, ⟨p, st.lastAuthSeq⟩))) ∧
    (jsIndex msg 1 ≠ .str "n" →
      (st.lastAuthSeq = -1 → 0 < w →
        validateMessageSeq true st (.arr msg) = (none, ⟨p, w⟩)) ∧
      (0 ≤ st.lastAuthSeq → w = st.lastAuthSeq + 1 →
        validateMessageSeq true st (.arr msg) = (none, ⟨p, w⟩)) ∧
      (0 ≤ st.lastAuthSeq → w ≠ 0 → w ≠ st.lastAuthSeq + 1 →
        ∃ e, validateMessageSeq true st (.arr msg) =
          (some e, ⟨p, st.lastAuthSeq⟩))) := by
  rw [validateMessageSeq_decomp st msg hne, hpub]
  have hav : authSeqValOf msg = .num w := by
    simp [authSeqValOf, hchan, hw]
  rw [hav]
  refine ⟨fun h0 => ?_, fun hn hw0 => ⟨fun heq => ?_, fun hne2 => ?_⟩,
    fun hn => ⟨fun hfirst hpos => ?_, fun h0 hsucc => ?_, fun h0 hw0 hnsucc => ?_⟩⟩
  · simp [authSeqStep, h0]
  · simp [authSeqStep, hn, hw0, heq]
  · simp only [authSeqStep]
    simp [hn, hw0, fun h => hne2 h]
  · have hne0 : w ≠ 0 := by omega
    have hnem1 : w ≠ -1 := by omega
    simp [authSeqStep, hn, hne0, hnem1, hfirst]
  · have hne0 : w ≠ 0 := by omega
    have hne3 : w ≠ st.lastAuthSeq := by omega
    have hne4 : st.lastAuthSeq + 1 ≠ 0 := by omega
    simp [authSeqStep, hn, hne0, hne3, hne4, hsucc]
  · rcases eq_or_ne w st.lastAuthSeq with heq | hne3
    · have hz : st.lastAuthSeq ≠ 0 := by omega
      simp [authSeqStep, hn, hw0, heq, hz]
    · have hm1 : st.lastAuthSeq ≠ -1 := by omega
      simp [authSeqStep, hn, hw0, hne3, hm1, hnsucc]

/-- Witness for C2 at the channel-0 packet `[0, "os", [], 4, 10]` with
stored counters (3, 9): pub advances 3→4, auth advances 9→10, no error. -/
theorem claim2_auth_sequence_audit_witness :
    chanZeroNonHb [WsVal.num 0, WsVal.str "os", WsVal.arr [], WsVal.num 4,
      WsVal.num 10] = true ∧
    validateMessageSeq true ⟨3, 9⟩
      (.arr [WsVal.num 0, WsVal.str "os", WsVal.arr [], WsVal.num 4,
        WsVal.num 10]) = (none, ⟨4, 10⟩) :=
  ⟨by decide,
    ((claim2_auth_sequence_audit ⟨3, 9⟩
        [WsVal.num 0, WsVal.str "os", WsVal.arr [], WsVal.num 4, WsVal.num 10]
        4 10 (by decide) (by decide) (by decide) (by decide)).2.2
      (by decide)).2.1 (by decide) (by decide)⟩

/-! ## ManagedOrderBookStore — checksum handling
(`_handleOBChecksumMessage`, ws2.js lines 773-803, and
`_verifyManagedOBChecksum`, lines 891-903) -/

/-- Generic JS-object-as-map lookup over an association list. -/
def mapLookup {α : Type} (m : List (String × α)) (key : String) : Option α :=
  (m.find? (fun kv => kv.1 == key)).map (fun kv => kv.2)

/-- JS object assignment `m[key] = v`: update the existing entry or add one. -/
def mapSet {α : Type} (m : List (String × α)) (key : String) (v : α) :
    List (String × α) :=
  match m with
  | [] => [(key, v)]
  | kv :: rest =>
    if kv.1 == key then (key, v) :: rest else kv :: mapSet rest key v

/-- JS `delete m[key]`. -/
def mapDelete {α : Type} (m : List (String × α)) (key : String) :
    List (String × α) :=
  match m with
  | [] => []
  | kv :: rest => if kv.1 == key then rest else kv :: mapDelete rest key

/-- The two managed book stores, `_orderBooks` and `_losslessOrderBooks`,
keyed by symbol.  Books themselves are kept as raw wire values. -/
structure BookState where
  orderBooks : List (String × WsVal)
  losslessOrderBooks : List (String × WsVal)
deriving DecidableEq

/-- Channel-map entry for a book channel (symbol, precision, length). -/
structure BookChanData where
  chanId : Int
  symbol : String
  prec : String
  len : String
deriving DecidableEq

/-- `_verifyManagedOBChecksum(symbol, prec, cs)` (ws2.js lines 891-903).
`checksumArr` stands for the external `OrderBook.checksumArr` from
bfx-api-node-models (an opaque collaborator; the `instanceof OrderBook`
branch is dead here because `_losslessOrderBooks` only ever holds the raw
values parsed in `_updateManagedOB`). -/
def verifyManagedOBChecksum (checksumArr : WsVal → Bool → Int)
    (st : BookState) (symbol : String) (prec : String) (cs : WsVal) :
    Option String :=
  match mapLookup st.losslessOrderBooks symbol with
  | none => none
  | some ob =>
    let localCS := checksumArr ob (prec == "R0")
    if WsVal.num localCS != cs then
      let want := jsToString cs
      some s!"OB checksum mismatch: got {localCS}, want {want}"
    else
      none

/-- Internal message handed to `_propagateMessageToListeners`: the array
plus the optional `filterOverride` property attached to it. -/
structure InternalMsg where
  arr : List WsVal
  filterOverride : Option (List WsVal)
deriving DecidableEq

/-- Observable outcome of `_handleOBChecksumMessage`: the errors emitted,
the internal message propagated to listeners (if control reaches that
point), and the resulting book stores. -/
structure ChecksumOutcome where
  errors : List String
  propagated : Option InternalMsg
  st : BookState
deriving DecidableEq

/-- JS `symbol[0] === 't'`. -/
def startsWithT (s : String) : Bool :=
  match s.data with
  | [] => false
  | c :: _ => c == 't'

/-- `_handleOBChecksumMessage(msg, chanData)` (ws2.js lines 773-803). -/
def handleOBChecksumMessage (checksumArr : WsVal → Bool → Int)
    (manageOrderBooks : Bool) (st : BookState) (chanData : BookChanData)
    (msg : List WsVal) : ChecksumOutcome :=
  if !manageOrderBooks then
    { errors := [], propagated := none, st := st }
  else
    let cs := jsIndex msg 2
    let propagate : ChecksumOutcome :=
      { errors := [],
        propagated := some
          { arr := [.num chanData.chanId, .str "ob_checksum", cs],
            filterOverride := some [.str chanData.symbol, .str chanData.prec,
              .str chanData.len] },
        st := st }
    if startsWithT chanData.symbol then
      match verifyManagedOBChecksum checksumArr st chanData.symbol
          chanData.prec cs with
      | some err => { errors := [err], propagated := none, st := st }
      | none => propagate
    else
      propagate

/-- Claim C3: with order-book management enabled, a checksum control
message for a funding book (symbol not starting with `t`) performs no
verification and raises no error; for a trading book whose locally
computed checksum over the stored lossless book differs from the
server-supplied value, exactly one checksum error is raised, nothing is
propagated, and both stored book representations are left unmodified
(indeed the whole handler never writes the stores). -/
theorem claim3_checksum_handling (checksumArr : WsVal → Bool → Int)
    (st : BookState) (chanData : BookChanData) (msg : List WsVal) :
    (startsWithT chanData.symbol = false →
      (handleOBChecksumMessage checksumArr true st chanData msg).errors = [] ∧
      (handleOBChecksumMessage checksumArr true st chanData msg).st = st) ∧
    (∀ ob, startsWithT chanData.symbol = true →
      mapLookup st.losslessOrderBooks chanData.symbol = some ob →
      WsVal.num (checksumArr ob (chanData.prec == "R0")) ≠ jsIndex msg 2 →
      (∃ e, (handleOBChecksumMessage checksumArr true st chanData msg).errors
        = [e]) ∧
      (handleOBChecksumMessage checksumArr true st chanData msg).propagated
        = none ∧
      (handleOBChecksumMessage checksumArr true st chanData msg).st = st) := by
  constructor
  · intro hf
    simp [handleOBChecksumMessage, hf]
  · intro ob ht hob hcs
    have hv : ∃ e, verifyManagedOBChecksum checksumArr st chanData.symbol
        chanData.prec (jsIndex msg 2) = some e := by
      simp [verifyManagedOBChecksum, hob, hcs]
    obtain ⟨e, hv⟩ := hv
    simp [handleOBChecksumMessage, ht, hv]

/-- Witness for C3: trading symbol `tBTCUSD`, stored lossless book `[]`,
local checksum 1 versus server value 2 yields exactly one error and the
stores untouched. -/
theorem claim3_checksum_handling_witness :
    startsWithT "tBTCUSD" = true ∧
    (handleOBChecksumMessage (fun _ _ => 1) true
      ⟨[("tBTCUSD", .arr [])], [("tBTCUSD", .arr [])]⟩
      ⟨17, "tBTCUSD", "P0", "25"⟩
      [.num 17, .str "cs", .num 2]).st =
      ⟨[("tBTCUSD", .arr [])], [("tBTCUSD", .arr [])]⟩ :=
  ⟨by decide,
    ((claim3_checksum_handling (fun _ _ => 1)
        ⟨[("tBTCUSD", .arr [])], [("tBTCUSD", .arr [])]⟩
        ⟨17, "tBTCUSD", "P0", "25"⟩
        [.num 17, .str "cs", .num 2]).2 (.arr [])
      (by decide) (by decide) (by decide)).2.2⟩

/-! ## OrderOpBatcher — `_sendOrderPacket` (ws2.js lines 2017-2032),
`_hasOrderBuff`/`_ensureOrderBuffTimeout` (lines 2030-2044),
`_flushOrderOps` (lines 2053-2071), `submitOrderMultiOp` (lines 2004-2011),
`send` (lines 1546-1555). -/

structure OrderOpState where
  wsExists : Bool
  isOpen : Bool
  isClosing : Bool
  isAuthenticated : Bool
  orderOpBufferDelay : Int
  orderOpBuffer : List (List WsVal)
  orderOpTimeoutArmed : Bool
  sent : List WsVal
  errors : List String
deriving DecidableEq

/-- `send(msg)` (ws2.js lines 1546-1555): emits an error instead of
sending when there is no client, the socket is not open, or it is
closing. -/
def wsSend (st : OrderOpState) (msg : WsVal) : OrderOpState :=
  if !st.wsExists || !st.isOpen then
    { st with errors := st.errors ++ ["no ws client or not open"] }
  else if st.isClosing then
    { st with errors := st.errors ++ ["connection currently closing"] }
  else
    { st with sent := st.sent ++ [msg] }

/-- `_hasOrderBuff()` (ws2.js lines 2030-2032): strictly positive delay. -/
def hasOrderBuff (st : OrderOpState) : Bool :=
  decide (0 < st.orderOpBufferDelay)

/-- `_ensureOrderBuffTimeout()` (ws2.js lines 2037-2044): arms the flush
timer if it is not armed. -/
def ensureOrderBuffTimeout (st : OrderOpState) : OrderOpState :=
  if st.orderOpTimeoutArmed then st
  else { st with orderOpTimeoutArmed := true }

/-- `_sendOrderPacket(packet)` (ws2.js lines 2017-2024). -/
def sendOrderPacket (st : OrderOpState) (packet : List WsVal) : OrderOpState :=
  if hasOrderBuff st then
    let st1 := ensureOrderBuffTimeout st
    { st1 with orderOpBuffer := st1.orderOpBuffer ++ [packet] }
  else
    wsSend st (.arr packet)

/-- The wire form of one `ox_multi` message (ws2.js line 2010). -/
def multiOpMsg (ops : List (List WsVal)) : WsVal :=
  .arr [.num 0, .str "ox_multi", .null, .arr (ops.map .arr)]

/-- `submitOrderMultiOp(opPayloads)` (ws2.js lines 2004-2011): rejects
when not authenticated, otherwise sends one `ox_multi` message. -/
def submitOrderMultiOp (st : OrderOpState) (ops : List (List WsVal)) :
    OrderOpState :=
  if !st.isAuthenticated then
    { st with errors := st.errors ++ ["not authenticated"] }
  else
    wsSend st (multiOpMsg ops)

/-- The `while` loop of `_flushOrderOps` splices the op list into chunks
of at most 15, in order.  The `fuel` argument (instantiated with the list
length, an upper bound on the number of loop iterations since every
iteration removes at least one element) makes the recursion structural so
that the function evaluates inside the kernel. -/
def chunksOf15Fuel {α : Type} : Nat → List α → List (List α)
  | _, [] => []
  | 0, x :: xs => [x :: xs]
  | Nat.succ f, x :: xs =>
    ((x :: xs).take 15) :: chunksOf15Fuel f ((x :: xs).drop 15)

def chunksOf15 {α : Type} (l : List α) : List (List α) :=
  chunksOf15Fuel l.length l

/-- `p => [p[1], p[3]]` (ws2.js line 2056). -/
def orderOpFields (p : List WsVal) : List WsVal :=
  [jsIndex p 1, jsIndex p 3]

/-- `_flushOrderOps()` (ws2.js lines 2053-2071). -/
def flushOrderOps (st : OrderOpState) : OrderOpState :=
  let st1 := { st with orderOpTimeoutArmed := false }
  let packets := st1.orderOpBuffer.map orderOpFields
  let st2 := { st1 with orderOpBuffer := [] }
  if packets.length ≤ 15 then
    submitOrderMultiOp st2 packets
  else
    (chunksOf15 packets).foldl submitOrderMultiOp st2

/-! ### Helper lemmas for the batcher -/

theorem chunksOf15Fuel_nil {α : Type} (f : Nat) :
    chunksOf15Fuel f ([] : List α) = [] := by
  cases f <;> rfl

theorem chunksOf15Fuel_join {α : Type} (f : Nat) (l : List α) :
    (chunksOf15Fuel f l).flatten = l := by
  induction f generalizing l with
  | zero => cases l <;> simp [chunksOf15Fuel]
  | succ f ih =>
    cases l with
    | nil => simp [chunksOf15Fuel]
    | cons x xs =>
      rw [chunksOf15Fuel, List.flatten_cons, ih, List.take_append_drop]

theorem chunksOf15_join {α : Type} (l : List α) :
    (chunksOf15 l).flatten = l :=
  chunksOf15Fuel_join l.length l

theorem chunksOf15Fuel_length {α : Type} (f : Nat) (l : List α)
    (h : l.length ≤ f) :
    (chunksOf15Fuel f l).length = (l.length + 14) / 15 := by
  induction f generalizing l with
  | zero =>
    cases l with
    | nil => simp only [chunksOf15Fuel, List.length_nil]
    | cons x xs => simp at h
  | succ f ih =>
    cases l with
    | nil => simp only [chunksOf15Fuel, List.length_nil]
    | cons x xs =>
      rw [chunksOf15Fuel, List.length_cons,
        ih _ (by simp only [List.length_drop, List.length_cons] at h ⊢; omega)]
      simp only [List.length_drop, List.length_cons]
      omega

theorem chunksOf15_length {α : Type} (l : List α) :
    (chunksOf15 l).length = (l.length + 14) / 15 :=
  chunksOf15Fuel_length l.length l le_rfl

theorem chunksOf15Fuel_sizes {α : Type} (f : Nat) (l : List α)
    (h : l.length ≤ f) :
    ∀ c ∈ chunksOf15Fuel f l, c.length ≤ 15 := by
  induction f generalizing l with
  | zero =>
    cases l with
    | nil => intro c hc; cases hc
    | cons x xs => simp at h
  | succ f ih =>
    cases l with
    | nil => intro c hc; cases hc
    | cons x xs =>
      intro c hc
      rw [chunksOf15Fuel] at hc
      rcases List.mem_cons.mp hc with h1 | h1
      · subst h1
        exact List.length_take_le 15 (x :: xs)
      · exact ih _ (by simp only [List.length_drop, List.length_cons] at h ⊢; omega) c h1

theorem chunksOf15_sizes {α : Type} (l : List α) :
    ∀ c ∈ chunksOf15 l, c.length ≤ 15 :=
  chunksOf15Fuel_sizes l.length l le_rfl

theorem chunksOf15_singleton {α : Type} (l : List α) (h0 : l ≠ [])
    (h15 : l.length ≤ 15) : chunksOf15 l = [l] := by
  cases l with
  | nil => exact absurd rfl h0
  | cons x xs =>
    rw [chunksOf15, List.length_cons, chunksOf15Fuel,
      List.take_of_length_le h15, List.drop_eq_nil_of_le h15,
      chunksOf15Fuel_nil]

theorem submitOrderMultiOp_ok (st : OrderOpState) (ops : List (List WsVal))
    (hA : st.isAuthenticated = true) (hW : st.wsExists = true)
    (hO : st.isOpen = true) (hC : st.isClosing = false) :
    submitOrderMultiOp st ops =
      { st with sent := st.sent ++ [multiOpMsg ops] } := by
  simp [submitOrderMultiOp, wsSend, hA, hW, hO, hC]

theorem foldl_submitOrderMultiOp (cs : List (List (List WsVal)))
    (st : OrderOpState)
    (hA : st.isAuthenticated = true) (hW : st.wsExists = true)
    (hO : st.isOpen = true) (hC : st.isClosing = false) :
    cs.foldl submitOrderMultiOp st =
      { st with sent := st.sent ++ cs.map multiOpMsg } := by
  induction cs generalizing st with
  | nil => simp
  | cons c cs ih =>
    rw [List.foldl_cons, submitOrderMultiOp_ok st c hA hW hO hC,
      ih { st with sent := st.sent ++ [multiOpMsg c] } hA hW hO hC]
    simp

/-- Claim C4 counterexample: with a buffering delay of 0 — a non-negative
value — an order packet is NOT queued; it is sent immediately as a
standalone message (`_hasOrderBuff` requires a strictly positive delay,
and the constructor maps a configured delay of 0 to -1 via `|| -1`). -/
theorem claim4_counterexample :
    (sendOrderPacket ⟨true, true, false, true, 0, [], false, [], []⟩
      [.num 0, .str "on", .null, .str "o1"]).orderOpBuffer = [] ∧
    (sendOrderPacket ⟨true, true, false, true, 0, [], false, [], []⟩
      [.num 0, .str "on", .null, .str "o1"]).sent =
      [.arr [.num 0, .str "on", .null, .str "o1"]] := by
  decide

/-- Claim C4 (amended): whenever a strictly positive buffering delay is
configured, every order command — starting from any buffer state,
including the empty one — is queued (appended in order, timer armed,
nothing sent); and flushing a nonempty queue of k operations (on an open,
authenticated connection) empties the queue, clears the timer, and sends
exactly ceil(k/15) `ox_multi` messages, in splice order, whose
concatenated op lists equal the queued operations (each reduced to its
`[type, payload]` fields), each message carrying at most 15 operations. -/
theorem claim4_order_op_batching (st : OrderOpState) (packet : List WsVal)
    (hd : 0 < st.orderOpBufferDelay) :
    (sendOrderPacket st packet).orderOpBuffer = st.orderOpBuffer ++ [packet] ∧
    (sendOrderPacket st packet).sent = st.sent ∧
    (sendOrderPacket st packet).orderOpTimeoutArmed = true ∧
    (st.isAuthenticated = true → st.wsExists = true → st.isOpen = true →
      st.isClosing = false → 1 ≤ st.orderOpBuffer.length →
      (flushOrderOps st).orderOpBuffer = [] ∧
      (flushOrderOps st).orderOpTimeoutArmed = false ∧
      (flushOrderOps st).sent =
        st.sent ++
          (chunksOf15 (st.orderOpBuffer.map orderOpFields)).map multiOpMsg) ∧
    (chunksOf15 (st.orderOpBuffer.map orderOpFields)).length =
      (st.orderOpBuffer.length + 14) / 15 ∧
    (chunksOf15 (st.orderOpBuffer.map orderOpFields)).flatten =
      st.orderOpBuffer.map orderOpFields ∧
    (∀ c ∈ chunksOf15 (st.orderOpBuffer.map orderOpFields), c.length ≤ 15) := by
  have hbuff : hasOrderBuff st = true := by
    simpa [hasOrderBuff] using hd
  have henq : sendOrderPacket st packet =
      { st with
          orderOpTimeoutArmed := true
          orderOpBuffer := st.orderOpBuffer ++ [packet] } := by
    obtain ⟨w, o, cl, au, d, b, t, s, e⟩ := st
    cases t <;> simp_all [sendOrderPacket, ensureOrderBuffTimeout]
  refine ⟨?_, ?_, ?_, fun hA hW hO hC hk => ?_, ?_,
    chunksOf15_join _, chunksOf15_sizes _⟩
  · simp only [henq]
  · simp only [henq]
  · simp only [henq]
  · have hne : st.orderOpBuffer.map orderOpFields ≠ [] := by
      intro h
      have h2 := congrArg List.length h
      simp only [List.length_map, List.length_nil] at h2
      omega
    have hflush : flushOrderOps st =
        { st with
            orderOpTimeoutArmed := false
            orderOpBuffer := []
            sent := st.sent ++
              (chunksOf15 (st.orderOpBuffer.map orderOpFields)).map multiOpMsg } := by
      rw [flushOrderOps]
      by_cases h15 : (st.orderOpBuffer.map orderOpFields).length ≤ 15
      · simp only [h15, if_true]
        rw [submitOrderMultiOp_ok
            { st with orderOpTimeoutArmed := false, orderOpBuffer := [] }
            _ hA hW hO hC,
          chunksOf15_singleton _ hne h15]
        rfl
      · simp only [h15, if_false]
        rw [foldl_submitOrderMultiOp _
          { st with orderOpTimeoutArmed := false, orderOpBuffer := [] }
          hA hW hO hC]
    exact ⟨by simp only [hflush], by simp only [hflush], by simp only [hflush]⟩
  · simpa using chunksOf15_length (st.orderOpBuffer.map orderOpFields)

/-- Witness for C4: the first order command arriving at an empty buffer
with delay 5 is queued (not sent); and flushing a queue of 37 buffered
order packets produces exactly 3 `ox_multi` messages of sizes 15, 15 and
7, concatenating back to the original queue in order. -/
theorem claim4_order_op_batching_witness :
    (0 : Int) < 5 ∧
    (sendOrderPacket ⟨true, true, false, true, 5, [], false, [], []⟩
      [.num 0, .str "on", .null, .str "o1"]).orderOpBuffer =
      [] ++ [[.num 0, .str "on", .null, .str "o1"]] ∧
    1 ≤ (List.replicate 37 ([.num 0, .str "on", .null, .num 1] : List WsVal)).length ∧
    (flushOrderOps ⟨true, true, false, true, 5,
        List.replicate 37 [.num 0, .str "on", .null, .num 1], true, [], []⟩).sent =
      [] ++ (chunksOf15 ((List.replicate 37
        ([.num 0, .str "on", .null, .num 1] : List WsVal)).map orderOpFields)).map multiOpMsg ∧
    (chunksOf15 ((List.replicate 37
        ([.num 0, .str "on", .null, .num 1] : List WsVal)).map orderOpFields)).map List.length
      = [15, 15, 7] :=
  ⟨by decide,
    (claim4_order_op_batching ⟨true, true, false, true, 5, [], false, [], []⟩
      [.num 0, .str "on", .null, .str "o1"] (by decide)).1,
    by decide,
    ((claim4_order_op_batching ⟨true, true, false, true, 5,
        List.replicate 37 [.num 0, .str "on", .null, .num 1], true, [], []⟩ []
      (by decide)).2.2.2.1 (by decide) (by decide) (by decide) (by decide)
      (by decide)).2.2,
    by decide⟩

/-! ## ConnectionManager — the store resets performed by `open()`
(ws2.js lines 277-310) -/

/-- The connection-level stores affected by `open()`. -/
structure ConnStores where
  isOpen : Bool
  wsExists : Bool
  subscriptionRefs : List (String × Int)
  candles : List (String × List WsVal)
  orderBooks : List (String × WsVal)
  losslessOrderBooks : List (String × WsVal)
  channelMap : List (Nat × WsVal)
deriving DecidableEq

/-- The synchronous part of `open()` (ws2.js lines 277-294): throws when
already open or a socket exists; otherwise creates the socket and clears
`_subscriptionRefs`, `_candles` and `_orderBooks` (lines 288-290). -/
def openStep (st : ConnStores) : Except String ConnStores :=
  if st.isOpen || st.wsExists then
    .error "already open"
  else
    .ok { st with
        wsExists := true
        subscriptionRefs := []
        candles := []
        orderBooks := [] }

/-- Claim C5 counterexample: `open()` does NOT reset the lossless order
books or the channel map.  From a closed state holding a lossless book for
`tBTCUSD` and a channel-map entry, `open()` succeeds with both left intact
(only the subscription refs, candles and numeric books are cleared). -/
theorem claim5_counterexample :
    openStep ⟨false, false, [("trades:tBTCUSD", 1)],
        [("trade:1m:tBTCUSD", [.arr []])], [("tBTCUSD", .arr [])],
        [("tBTCUSD", .arr [])], [(42, .str "book")]⟩ =
      .ok ⟨false, true, [], [], [], [("tBTCUSD", .arr [])],
        [(42, .str "book")]⟩ ∧
    ([("tBTCUSD", WsVal.arr [])] : List (String × WsVal)) ≠ [] ∧
    ([(42, WsVal.str "book")] : List (Nat × WsVal)) ≠ [] :=
  ⟨rfl, by decide, by decide⟩

/-- Claim C5 (amended): at the start of an `open()` cycle from a closed,
socket-free state, `open()` clears the subscription refs, the candle sets
and the numeric order books; the lossless order books and the channel map
are left untouched by `open()` (the channel map is cleared by the close
handler instead, where it is also snapshotted for resubscription after a
reconnect). -/
theorem claim5_open_resets (st : ConnStores)
    (h1 : st.isOpen = false) (h2 : st.wsExists = false) :
    ∃ st1, openStep st = .ok st1 ∧
      st1.subscriptionRefs = [] ∧
      st1.candles = [] ∧
      st1.orderBooks = [] ∧
      st1.losslessOrderBooks = st.losslessOrderBooks ∧
      st1.channelMap = st.channelMap ∧
      st1.wsExists = true := by
  refine ⟨{ st with wsExists := true, subscriptionRefs := [], candles := [], orderBooks := [] },
    ?_, rfl, rfl, rfl, rfl, rfl, rfl⟩
  simp [openStep, h1, h2]

/-- Witness for C5 (amended): a concrete closed state with one lossless
book and one channel entry. -/
theorem claim5_open_resets_witness :
    ∃ st1, openStep ⟨false, false, [("a", 2)], [], [], [("tBTCUSD", .null)],
        [(7, .null)]⟩ = .ok st1 ∧
      st1.subscriptionRefs = [] ∧
      st1.candles = [] ∧
      st1.orderBooks = [] ∧
      st1.losslessOrderBooks = [("tBTCUSD", .null)] ∧
      st1.channelMap = [(7, .null)] ∧
      st1.wsExists = true :=
  claim5_open_resets ⟨false, false, [("a", 2)], [], [], [("tBTCUSD", .null)],
    [(7, .null)]⟩ (by decide) (by decide)

/-! ## SubscriptionRegistry — `managedSubscribe` (ws2.js lines 1447-1459),
`managedUnsubscribe` (lines 1469-1482), `_chanIdByIdentifier`
(lines 1506-1522), `subscribe` (lines 1687-1692), `unsubscribe`
(lines 1772-1777). -/

/-- Channel-map descriptor fields consulted by `_chanIdByIdentifier`. -/
structure ChanDesc where
  channel : String
  symbol : Option String
  key : Option String
deriving DecidableEq

inductive OutboundMsg where
  | subMsg (channel : String) (payload : WsVal)
  | unsubMsg (chanId : Nat)
deriving DecidableEq

structure SubsState where
  wsExists : Bool
  isOpen : Bool
  isClosing : Bool
  subscriptionRefs : List (String × Int)
  channelMap : List (Nat × ChanDesc)
  sent : List OutboundMsg
  errors : List String
deriving DecidableEq

/-- `send(msg)` (ws2.js lines 1546-1555), for the subscription registry:
emits an error instead of sending when not connected or closing. -/
def subsSend (st : SubsState) (m : OutboundMsg) : SubsState :=
  if !st.wsExists || !st.isOpen then
    { st with errors := st.errors ++ ["no ws client or not open"] }
  else if st.isClosing then
    { st with errors := st.errors ++ ["connection currently closing"] }
  else
    { st with sent := st.sent ++ [m] }

/-- `managedSubscribe(channel, identifier, payload)` (ws2.js lines
1447-1459): a truthy existing ref count (nonzero) is incremented with no
network action; otherwise the count is set to 1 and a subscribe packet is
sent.  Returns the `subSent` flag with the new state. -/
def managedSubscribe (st : SubsState) (channel identifier : String)
    (payload : WsVal) : Bool × SubsState :=
  let key := channel ++ ":" ++ identifier
  match mapLookup st.subscriptionRefs key with
  | some n =>
    if n != 0 then
      (false, { st with subscriptionRefs := mapSet st.subscriptionRefs key (n + 1) })
    else
      (true, subsSend
        { st with subscriptionRefs := mapSet st.subscriptionRefs key 1 }
        (.subMsg channel payload))
  | none =>
    (true, subsSend
      { st with subscriptionRefs := mapSet st.subscriptionRefs key 1 }
      (.subMsg channel payload))

/-- `_chanIdByIdentifier(channel, identifier)` (ws2.js lines 1506-1522);
it scans `this._channelMap`, passed here explicitly. -/
def chanIdByIdentifier (channelMap : List (Nat × ChanDesc))
    (channel identifier : String) : Option Nat :=
  (channelMap.find? (fun kv =>
    kv.2.channel == channel &&
      (kv.2.symbol == some identifier || kv.2.key == some identifier))).map
    (fun kv => kv.1)

/-- `managedUnsubscribe(channel, identifier)` (ws2.js lines 1469-1482):
no-op unless a matching channel exists and a ref count is present; the
count is decremented, and only on reaching zero is an unsubscribe sent and
the ref entry deleted. -/
def managedUnsubscribe (st : SubsState) (channel identifier : String) :
    Bool × SubsState :=
  let key := channel ++ ":" ++ identifier
  match chanIdByIdentifier st.channelMap channel identifier with
  | none => (false, st)
  | some chanId =>
    match mapLookup st.subscriptionRefs key with
    | none => (false, st)
    | some n =>
      if n - 1 > 0 then
        (false, { st with subscriptionRefs := mapSet st.subscriptionRefs key (n - 1) })
      else
        let st1 := { st with subscriptionRefs := mapSet st.subscriptionRefs key (n - 1) }
        let st2 := subsSend st1 (.unsubMsg chanId)
        (true, { st2 with subscriptionRefs := mapDelete st2.subscriptionRefs key })

/-- `i` successive `managedSubscribe` calls for one (channel, identifier). -/
def subCalls (channel identifier : String) (payload : WsVal) :
    Nat → SubsState → SubsState
  | 0, st => st
  | n + 1, st =>
    (managedSubscribe (subCalls channel identifier payload n st)
      channel identifier payload).2

/-- `j` successive `managedUnsubscribe` calls for one (channel, identifier). -/
def unsubCalls (channel identifier : String) : Nat → SubsState → SubsState
  | 0, st => st
  | n + 1, st =>
    (managedUnsubscribe (unsubCalls channel identifier n st)
      channel identifier).2

/-! ### Association-list lemmas -/

theorem mapLookup_set_self {α : Type} (m : List (String × α)) (k : String)
    (v : α) : mapLookup (mapSet m k v) k = some v := by
  induction m with
  | nil => simp [mapLookup, mapSet]
  | cons kv rest ih =>
    by_cases h : kv.1 = k
    · simp [mapLookup, mapSet, h]
    · simp only [mapSet, if_neg (by simpa using h)]
      simpa [mapLookup, List.find?_cons, h] using ih

theorem mapSet_mapSet {α : Type} (m : List (String × α)) (k : String)
    (v w : α) : mapSet (mapSet m k v) k w = mapSet m k w := by
  induction m with
  | nil => simp [mapSet]
  | cons kv rest ih =>
    by_cases h : kv.1 = k
    · simp [mapSet, h]
    · simp [mapSet, h, ih]

theorem mapDelete_set {α : Type} (m : List (String × α)) (k : String)
    (v : α) (h : mapLookup m k = none) : mapDelete (mapSet m k v) k = m := by
  induction m with
  | nil => simp [mapSet, mapDelete]
  | cons kv rest ih =>
    by_cases hk : kv.1 = k
    · exfalso
      simp [mapLookup, List.find?_cons, hk] at h
    · have h2 : mapLookup rest k = none := by
        simpa [mapLookup, List.find?_cons, hk] using h
      simp [mapSet, mapDelete, hk, ih h2]

/-! ### Behaviour of repeated managed subscribe/unsubscribe calls -/

theorem subCalls_spec (channel identifier : String) (payload : WsVal)
    (st : SubsState) (hW : st.wsExists = true) (hO : st.isOpen = true)
    (hC : st.isClosing = false)
    (hnone : mapLookup st.subscriptionRefs (channel ++ ":" ++ identifier) = none) :
    ∀ i : Nat, subCalls channel identifier payload (i + 1) st =
      { st with
          subscriptionRefs :=
            mapSet st.subscriptionRefs (channel ++ ":" ++ identifier) ((i : Int) + 1)
          sent := st.sent ++ [.subMsg channel payload] } := by
  intro i
  induction i with
  | zero =>
    show (managedSubscribe (subCalls channel identifier payload 0 st)
      channel identifier payload).2 = _
    simp [subCalls, managedSubscribe, hnone, subsSend, hW, hO, hC]
  | succ i ih =>
    show (managedSubscribe (subCalls channel identifier payload (i + 1) st)
      channel identifier payload).2 = _
    rw [ih]
    have hne : ((i : Int) + 1) ≠ 0 := by omega
    simp [managedSubscribe, mapLookup_set_self, hne, mapSet_mapSet]

theorem managedSubscribe_first (st : SubsState) (channel identifier : String)
    (payload : WsVal)
    (hnone : mapLookup st.subscriptionRefs (channel ++ ":" ++ identifier) = none) :
    (managedSubscribe st channel identifier payload).1 = true := by
  simp [managedSubscribe, hnone]

theorem managedSubscribe_again (st : SubsState) (channel identifier : String)
    (payload : WsVal) (n : Int)
    (href : mapLookup st.subscriptionRefs (channel ++ ":" ++ identifier) = some n)
    (hn : n ≠ 0) :
    (managedSubscribe st channel identifier payload).1 = false := by
  simp [managedSubscribe, href, hn]

theorem unsubCalls_spec (channel identifier : String) (payload : WsVal)
    (st : SubsState) (cid : Nat) (M : Nat)
    (hW : st.wsExists = true) (hO : st.isOpen = true) (hC : st.isClosing = false)
    (hnone : mapLookup st.subscriptionRefs (channel ++ ":" ++ identifier) = none)
    (hchan : chanIdByIdentifier st.channelMap channel identifier = some cid) :
    ∀ j : Nat, j ≤ M →
      unsubCalls channel identifier j
        (subCalls channel identifier payload (M + 1) st) =
        { st with
            subscriptionRefs :=
              mapSet st.subscriptionRefs (channel ++ ":" ++ identifier)
                (((M + 1 : Nat) : Int) - (j : Int))
            sent := st.sent ++ [.subMsg channel payload] } := by
  intro j
  induction j with
  | zero =>
    intro _
    show subCalls channel identifier payload (M + 1) st = _
    rw [subCalls_spec channel identifier payload st hW hO hC hnone M]
    norm_num
  | succ j ih =>
    intro hj
    have hj1 : j ≤ M := by omega
    show (managedUnsubscribe
      (unsubCalls channel identifier j
        (subCalls channel identifier payload (M + 1) st))
      channel identifier).2 = _
    rw [ih hj1]
    have hn : ((M + 1 : Nat) : Int) - (j : Int) - 1 > 0 := by push_cast; omega
    have harg : ((M + 1 : Nat) : Int) - ((j + 1 : Nat) : Int) =
        ((M + 1 : Nat) : Int) - (j : Int) - 1 := by push_cast; ring
    simp only [managedUnsubscribe, hchan, mapLookup_set_self]
    rw [if_pos hn, harg]
    simp [mapSet_mapSet]

/-- Claim C6: for every (channel, identifier) pair and N ≥ 1, starting
with no ref count for the pair and a matching channel-map entry: N
`managedSubscribe` calls send exactly one outbound subscribe (the first
call returns true, later calls return false); the first N-1
`managedUnsubscribe` calls return false and send nothing; the N-th
returns true and sends exactly one unsubscribe; an (N+1)-th is a no-op
returning false. -/
theorem claim6_subscription_refcount (st : SubsState)
    (channel identifier : String) (payload : WsVal) (cid : Nat) (N : Nat)
    (hN : 1 ≤ N)
    (hW : st.wsExists = true) (hO : st.isOpen = true) (hC : st.isClosing = false)
    (hnone : mapLookup st.subscriptionRefs (channel ++ ":" ++ identifier) = none)
    (hchan : chanIdByIdentifier st.channelMap channel identifier = some cid) :
    (managedSubscribe st channel identifier payload).1 = true ∧
    (∀ i, 1 ≤ i →
      (managedSubscribe (subCalls channel identifier payload i st)
        channel identifier payload).1 = false) ∧
    (subCalls channel identifier payload N st).sent =
      st.sent ++ [.subMsg channel payload] ∧
    (∀ j, j < N - 1 →
      (managedUnsubscribe
        (unsubCalls channel identifier j
          (subCalls channel identifier payload N st))
        channel identifier).1 = false ∧
      (unsubCalls channel identifier (j + 1)
        (subCalls channel identifier payload N st)).sent =
        st.sent ++ [.subMsg channel payload]) ∧
    (managedUnsubscribe
      (unsubCalls channel identifier (N - 1)
        (subCalls channel identifier payload N st))
      channel identifier).1 = true ∧
    (unsubCalls channel identifier N
      (subCalls channel identifier payload N st)).sent =
      st.sent ++ [.subMsg channel payload, .unsubMsg cid] ∧
    (managedUnsubscribe
      (unsubCalls channel identifier N
        (subCalls channel identifier payload N st))
      channel identifier).1 = false ∧
    unsubCalls channel identifier (N + 1)
      (subCalls channel identifier payload N st) =
      unsubCalls channel identifier N
        (subCalls channel identifier payload N st) := by
  obtain ⟨M, rfl⟩ : ∃ M, N = M + 1 := ⟨N - 1, by omega⟩
  have hsub := subCalls_spec channel identifier payload st hW hO hC hnone
  have hunsub := unsubCalls_spec channel identifier payload st cid M
    hW hO hC hnone hchan
  have hM1 : M + 1 - 1 = M := by omega
  -- the state after the N-th unsubscribe: back to the original refs,
  -- with the subscribe and unsubscribe on the wire
  have hfin : unsubCalls channel identifier (M + 1)
      (subCalls channel identifier payload (M + 1) st) =
      { st with sent := st.sent ++ [.subMsg channel payload, .unsubMsg cid] } := by
    show (managedUnsubscribe
      (unsubCalls channel identifier M
        (subCalls channel identifier payload (M + 1) st))
      channel identifier).2 = _
    rw [hunsub M le_rfl]
    have hval : ((M + 1 : Nat) : Int) - (M : Int) = 1 := by push_cast; ring
    rw [hval]
    simp only [managedUnsubscribe, hchan, mapLookup_set_self]
    rw [if_neg (by norm_num : ¬ (1 : Int) - 1 > 0)]
    simp [subsSend, hW, hO, hC, mapSet_mapSet, mapDelete_set, hnone]
  refine ⟨managedSubscribe_first st channel identifier payload hnone,
    ?_, ?_, ?_, ?_, ?_, ?_, ?_⟩
  · intro i hi
    obtain ⟨j, rfl⟩ : ∃ j, i = j + 1 := ⟨i - 1, by omega⟩
    rw [hsub j]
    exact managedSubscribe_again _ channel identifier payload ((j : Int) + 1)
      (mapLookup_set_self st.subscriptionRefs (channel ++ ":" ++ identifier) _)
      (by omega)
  · rw [hsub M]
  · intro j hj
    constructor
    · rw [hunsub j (by omega)]
      have hn : ((M + 1 : Nat) : Int) - (j : Int) - 1 > 0 := by push_cast; omega
      simp only [managedUnsubscribe, hchan, mapLookup_set_self]
      rw [if_pos hn]
    · rw [hunsub (j + 1) (by omega)]
  · rw [hM1, hunsub M le_rfl]
    have hval : ((M + 1 : Nat) : Int) - (M : Int) = 1 := by push_cast; ring
    rw [hval]
    simp only [managedUnsubscribe, hchan, mapLookup_set_self]
    rw [if_neg (by norm_num : ¬ (1 : Int) - 1 > 0)]
  · rw [hfin]
  · rw [hfin]
    simp only [managedUnsubscribe, hchan, hnone]
  · show (managedUnsubscribe
      (unsubCalls channel identifier (M + 1)
        (subCalls channel identifier payload (M + 1) st))
      channel identifier).2 = _
    rw [hfin]
    simp only [managedUnsubscribe, hchan, hnone]

/-- Witness for C6 at N = 2: two subscribes for (trades, tBTCUSD) send one
subscribe packet; the second unsubscribe sends the unsubscribe for channel
42. -/
theorem claim6_subscription_refcount_witness :
    (1 : Nat) ≤ 2 ∧
    (subCalls "trades" "tBTCUSD" (.str "p") 2
      ⟨true, true, false, [], [(42, ⟨"trades", some "tBTCUSD", none⟩)], [], []⟩).sent =
      [.subMsg "trades" (.str "p")] ∧
    (unsubCalls "trades" "tBTCUSD" 2
      (subCalls "trades" "tBTCUSD" (.str "p") 2
        ⟨true, true, false, [], [(42, ⟨"trades", some "tBTCUSD", none⟩)], [], []⟩)).sent =
      [.subMsg "trades" (.str "p"), .unsubMsg 42] :=
  ⟨by decide,
    (claim6_subscription_refcount
      ⟨true, true, false, [], [(42, ⟨"trades", some "tBTCUSD", none⟩)], [], []⟩
      "trades" "tBTCUSD" (.str "p") 42 2 (by decide) (by decide) (by decide)
      (by decide) (by decide) (by decide)).2.2.1,
    (claim6_subscription_refcount
      ⟨true, true, false, [], [(42, ⟨"trades", some "tBTCUSD", none⟩)], [], []⟩
      "trades" "tBTCUSD" (.str "p") 42 2 (by decide) (by decide) (by decide)
      (by decide) (by decide) (by decide)).2.2.2.2.2.1⟩

/-! ## ListenerRegistry & dispatch — `_notifyListenerGroup` (ws2.js lines
1178-1224), `_payloadPassesFilter` (lines 1232-1249),
`_notifyCatchAllListeners` (lines 1256-1262). -/

/-- One registered listener: `{ cb, modelClass, filter }` (ws2.js lines
2163-2169); `id` identifies the callback, `hasModelClass` whether a
`modelClass` decode descriptor is attached. -/
structure Listener where
  id : Nat
  filter : Option (List (Nat × WsVal))
  hasModelClass : Bool
deriving DecidableEq

/-- lodash `_isEmpty`: numbers, null and undefined are empty; strings and
arrays are empty when their length is 0. -/
def lodashIsEmpty : WsVal → Bool
  | .num _ => true
  | .str s => s == ""
  | .arr l => l.isEmpty
  | .null => true
  | .undefined => true

/-- `_payloadPassesFilter(payload, filter)` (ws2.js lines 1232-1249): an
empty or `'*'` filter value matches anything; otherwise the payload value
at the filter index must be strictly equal. -/
def payloadPassesFilter (payload : WsVal) (filter : List (Nat × WsVal)) :
    Bool :=
  filter.all (fun kv =>
    if lodashIsEmpty kv.2 || kv.2 == .str "*" then true
    else payload.item kv.1 == kv.2)

/-- `const [, eventName, data = []] = msg`: the event name slot. -/
def msgEventName (m : InternalMsg) : WsVal := jsIndex m.arr 1

/-- `const [, eventName, data = []] = msg`: the data slot, defaulting to
`[]` when absent (destructuring defaults apply only to `undefined`). -/
def msgData (m : InternalMsg) : WsVal :=
  let d := jsIndex m.arr 2
  if d == .undefined then .arr [] else d

/-- `msg.filterOverride ? msg.filterOverride : item` (ws2.js lines 1195,
1204): the override (an array, always truthy) replaces the payload during
matching when present. -/
def filterTarget (m : InternalMsg) (item : WsVal) : WsVal :=
  match m.filterOverride with
  | some o => .arr o
  | none => item

/-- The body of the filter predicate of ws2.js lines 1187-1207, as a
function of the listener's optional filter: no filter always passes;
snapshot payloads (`Array.isArray(data[0])`) pass when some inner item
matches; single payloads are matched directly. -/
def matchesFilter (m : InternalMsg) :
    Option (List (Nat × WsVal)) → Bool
  | none => true
  | some f =>
    let data := msgData m
    if (data.item 0).isArr then
      ((data.asArr).filter (fun item =>
        payloadPassesFilter (filterTarget m item) f)).length != 0
    else
      payloadPassesFilter (filterTarget m data) f

/-- The filter predicate applied to each listener of the matching event
bucket (the lambda of ws2.js lines 1187-1207). -/
def listenerMatches (m : InternalMsg) (l : Listener) : Bool :=
  matchesFilter m l.filter

/-- How a callback was invoked: `raw` for the catch-all path (the whole
packet, no transform), `plain` for `cb(data)`, and the two transformed
forms of ws2.js lines 1216-1222. -/
inductive Invocation where
  | raw (id : Nat) (m : InternalMsg)
  | plain (id : Nat) (data : WsVal)
  | modelList (id : Nat) (data : WsVal)
  | modelOne (id : Nat) (data : WsVal)
deriving DecidableEq

def Invocation.invId : Invocation → Nat
  | .raw i _ => i
  | .plain i _ => i
  | .modelList i _ => i
  | .modelOne i _ => i

def Invocation.isDataCall : Invocation → Bool
  | .raw _ _ => false
  | .plain _ _ => true
  | .modelList _ _ => true
  | .modelOne _ _ => true

/-- `data.length === 0` (ws2.js line 1214). -/
def jsLenIsZero : WsVal → Bool
  | .arr l => l.isEmpty
  | .str s => s == ""
  | _ => false

/-- ws2.js lines 1211-1222: how one matched listener's callback is
invoked. -/
def invokeListener (transform : Bool) (data : WsVal) (l : Listener) :
    Invocation :=
  if !l.hasModelClass || !transform || jsLenIsZero data then
    .plain l.id data
  else if (data.item 0).isArr then
    .modelList l.id data
  else
    .modelOne l.id data

/-- `_notifyCatchAllListeners(lGroup, msg)` (ws2.js lines 1256-1262):
every listener of the empty-string bucket gets the raw packet. -/
def catchAllInvocations (g : List (String × List Listener))
    (m : InternalMsg) : List Invocation :=
  match mapLookup g "" with
  | none => []
  | some ls => ls.map (fun l => Invocation.raw l.id m)

/-- `_notifyListenerGroup(lGroup, msg, transform, ...)` (ws2.js lines
1178-1224), returning the invocations it performs, in order. -/
def notifyListenerGroup (g : List (String × List Listener))
    (m : InternalMsg) (transform : Bool) : List Invocation :=
  let catchAll := catchAllInvocations g m
  let eventName := jsToString (msgEventName m)
  let data := msgData m
  match mapLookup g eventName with
  | none => catchAll
  | some ls =>
    if ls.length == 0 then catchAll
    else
      catchAll ++ (ls.filter (listenerMatches m)).map
        (invokeListener transform data)

/-! ### Dispatch lemmas -/

theorem invokeListener_invId (t : Bool) (d : WsVal) (l : Listener) :
    (invokeListener t d l).invId = l.id := by
  unfold invokeListener
  split
  · rfl
  · split <;> rfl

theorem invokeListener_isDataCall (t : Bool) (d : WsVal) (l : Listener) :
    (invokeListener t d l).isDataCall = true := by
  unfold invokeListener
  split
  · rfl
  · split <;> rfl

theorem catchAll_no_dataCall (g : List (String × List Listener))
    (m : InternalMsg) (n : Nat) :
    (catchAllInvocations g m).any
      (fun inv => inv.isDataCall && inv.invId == n) = false := by
  unfold catchAllInvocations
  cases mapLookup g "" with
  | none => rfl
  | some ls => simp [Invocation.isDataCall]

theorem notifyListenerGroup_eq (g : List (String × List Listener))
    (m : InternalMsg) (transform : Bool) (e : String) (ls : List Listener)
    (hev : msgEventName m = .str e)
    (hls : mapLookup g e = some ls) (hne : ls ≠ []) :
    notifyListenerGroup g m transform =
      catchAllInvocations g m ++ (ls.filter (listenerMatches m)).map
        (invokeListener transform (msgData m)) := by
  unfold notifyListenerGroup
  rw [hev]
  show (match mapLookup g (jsToString (.str e)) with
    | none => catchAllInvocations g m
    | some ls =>
      if ls.length == 0 then catchAllInvocations g m
      else
        catchAllInvocations g m ++ (ls.filter (listenerMatches m)).map
          (invokeListener transform (msgData m))) = _
  have : jsToString (.str e) = e := rfl
  rw [this, hls]
  have hlen : (ls.length == 0) = false := by
    simpa using hne
  simp only [hlen, Bool.false_eq_true, if_false]

theorem passesFilter_single (p : WsVal) (k : Nat) :
    payloadPassesFilter p [(k, .str "tBTCUSD")] =
      (p.item k == .str "tBTCUSD") := by
  have h1 : lodashIsEmpty (.str "tBTCUSD") = false := by decide
  have h2 : (WsVal.str "tBTCUSD" == .str "*") = false := by decide
  simp [payloadPassesFilter, h1, h2]

theorem item0_isArr_shape (d : WsVal) (h : (d.item 0).isArr = true) :
    ∃ x xs, d = .arr (x :: xs) := by
  cases d with
  | arr l =>
    cases l with
    | nil => simp [WsVal.item, jsIndex, WsVal.isArr] at h
    | cons x xs => exact ⟨x, xs, rfl⟩
  | num n => simp [WsVal.item, WsVal.isArr] at h
  | str s =>
    simp only [WsVal.item] at h
    cases h3 : s.data[(0 : Nat)]? with
    | none => rw [h3] at h; simp [WsVal.isArr] at h
    | some c => rw [h3] at h; simp [WsVal.isArr] at h
  | null => simp [WsVal.item, WsVal.isArr] at h
  | undefined => simp [WsVal.item, WsVal.isArr] at h

/-- The only data-carrying invocation with a given listener id occurs iff
some listener of the event bucket with that id passes the filter. -/
theorem any_data_call_iff (g : List (String × List Listener))
    (m : InternalMsg) (transform : Bool) (e : String) (ls : List Listener)
    (n : Nat)
    (hev : msgEventName m = .str e)
    (hls : mapLookup g e = some ls) (hne : ls ≠ []) :
    ((notifyListenerGroup g m transform).any (fun inv =>
      inv.isDataCall && inv.invId == n) = true) ↔
    ∃ l2 ∈ ls, listenerMatches m l2 = true ∧ l2.id = n := by
  rw [notifyListenerGroup_eq g m transform e ls hev hls hne]
  rw [List.any_append, catchAll_no_dataCall g m n, Bool.false_or]
  constructor
  · intro h
    obtain ⟨inv, hinv, hp⟩ := List.any_eq_true.mp h
    obtain ⟨l2, hl2, rfl⟩ := List.mem_map.mp hinv
    obtain ⟨hmem, hmatch⟩ := List.mem_filter.mp hl2
    refine ⟨l2, hmem, hmatch, ?_⟩
    rw [invokeListener_isDataCall, invokeListener_invId] at hp
    simpa using hp
  · rintro ⟨l2, hmem, hmatch, rfl⟩
    apply List.any_eq_true.mpr
    refine ⟨invokeListener transform (msgData m) l2,
      List.mem_map_of_mem _ (List.mem_filter.mpr ⟨hmem, hmatch⟩), ?_⟩
    rw [invokeListener_isDataCall, invokeListener_invId]
    simp

/-- What passing the `{0: 'tBTCUSD'}` filter means for a packet. -/
theorem listenerMatches_tBTCUSD (m : InternalMsg) (l : Listener)
    (hf : l.filter = some [(0, .str "tBTCUSD")]) :
    listenerMatches m l = true ↔
      (if ((msgData m).item 0).isArr = true then
        ∃ item ∈ (msgData m).asArr,
          (filterTarget m item).item 0 = .str "tBTCUSD"
      else (filterTarget m (msgData m)).item 0 = .str "tBTCUSD") := by
  rw [listenerMatches, hf]
  by_cases hsnap : ((msgData m).item 0).isArr = true
  · simp only [matchesFilter, if_pos hsnap, passesFilter_single]
    constructor
    · intro hlen
      have hne2 : (msgData m).asArr.filter (fun item =>
          ((filterTarget m item).item 0 == .str "tBTCUSD")) ≠ [] := by
        intro h0
        rw [h0] at hlen
        simp at hlen
      obtain ⟨item, hitem⟩ := List.exists_mem_of_ne_nil _ hne2
      obtain ⟨hmem, hpass⟩ := List.mem_filter.mp hitem
      exact ⟨item, hmem, by simpa using hpass⟩
    · rintro ⟨item, hmem, hpass⟩
      have hin : item ∈ (msgData m).asArr.filter (fun item =>
          ((filterTarget m item).item 0 == .str "tBTCUSD")) :=
        List.mem_filter.mpr ⟨hmem, by simpa using hpass⟩
      rw [bne_iff_ne]
      intro h0
      rw [List.length_eq_zero] at h0
      rw [h0] at hin
      cases hin
  · simp only [matchesFilter, if_neg hsnap, passesFilter_single]
    exact beq_iff_eq

/-- Claim C7: in every dispatched packet and listener group, a listener
registered under the packet's event name with filter `{0: 'tBTCUSD'}` is
invoked (with data, not the raw packet) iff the matched payload — or the
filter override when present — has `'tBTCUSD'` at index 0, snapshot
payloads passing when any inner item matches; and every catch-all listener
(empty event name) receives the raw packet unconditionally. -/
theorem claim7_listener_filtering (g : List (String × List Listener))
    (m : InternalMsg) (transform : Bool) (e : String) (ls : List Listener)
    (l : Listener)
    (hev : msgEventName m = .str e)
    (hls : mapLookup g e = some ls)
    (hl : l ∈ ls)
    (hf : l.filter = some [(0, .str "tBTCUSD")])
    (huniq : ∀ l2 ∈ ls, l2.id = l.id → l2 = l) :
    (((notifyListenerGroup g m transform).any (fun inv =>
        inv.isDataCall && inv.invId == l.id)) = true ↔
      (if ((msgData m).item 0).isArr = true then
        ∃ item ∈ (msgData m).asArr,
          (filterTarget m item).item 0 = .str "tBTCUSD"
      else (filterTarget m (msgData m)).item 0 = .str "tBTCUSD")) ∧
    (∀ lc ∈ (mapLookup g "").getD [],
      Invocation.raw lc.id m ∈ notifyListenerGroup g m transform) := by
  have hne : ls ≠ [] := by
    intro h
    rw [h] at hl
    cases hl
  constructor
  · rw [any_data_call_iff g m transform e ls l.id hev hls hne]
    constructor
    · rintro ⟨l2, hmem, hmatch, hid⟩
      have heq := huniq l2 hmem hid
      subst heq
      exact (listenerMatches_tBTCUSD m l2 hf).mp hmatch
    · intro hcond
      exact ⟨l, hl, (listenerMatches_tBTCUSD m l hf).mpr hcond, rfl⟩
  · intro lc hlc
    rw [notifyListenerGroup_eq g m transform e ls hev hls hne]
    apply List.mem_append_left
    unfold catchAllInvocations
    cases hg : mapLookup g "" with
    | none => rw [hg] at hlc; cases hlc
    | some ls0 =>
      rw [hg] at hlc
      exact List.mem_map_of_mem _ hlc

/-- Witness for C7: a group with a catch-all listener (id 9) and a
`trades` listener (id 1) filtered on `{0: 'tBTCUSD'}`; a trades packet
with payload `['tBTCUSD', 7]` invokes listener 1 and hands listener 9 the
raw packet. -/
theorem claim7_listener_filtering_witness :
    ((notifyListenerGroup
        [("", [⟨9, none, false⟩]),
         ("trades", [⟨1, some [(0, .str "tBTCUSD")], false⟩])]
        ⟨[.num 5, .str "trades", .arr [.str "tBTCUSD", .num 7]], none⟩
        false).any (fun inv => inv.isDataCall && inv.invId == 1)) = true ∧
    Invocation.raw 9
      ⟨[.num 5, .str "trades", .arr [.str "tBTCUSD", .num 7]], none⟩ ∈
      notifyListenerGroup
        [("", [⟨9, none, false⟩]),
         ("trades", [⟨1, some [(0, .str "tBTCUSD")], false⟩])]
        ⟨[.num 5, .str "trades", .arr [.str "tBTCUSD", .num 7]], none⟩
        false :=
  ⟨(claim7_listener_filtering
      [("", [⟨9, none, false⟩]),
       ("trades", [⟨1, some [(0, .str "tBTCUSD")], false⟩])]
      ⟨[.num 5, .str "trades", .arr [.str "tBTCUSD", .num 7]], none⟩
      false "trades" [⟨1, some [(0, .str "tBTCUSD")], false⟩]
      ⟨1, some [(0, .str "tBTCUSD")], false⟩
      (by decide) (by decide) (by decide) (by decide)
      (by decide)).1.mpr (by decide),
   (claim7_listener_filtering
      [("", [⟨9, none, false⟩]),
       ("trades", [⟨1, some [(0, .str "tBTCUSD")], false⟩])]
      ⟨[.num 5, .str "trades", .arr [.str "tBTCUSD", .num 7]], none⟩
      false "trades" [⟨1, some [(0, .str "tBTCUSD")], false⟩]
      ⟨1, some [(0, .str "tBTCUSD")], false⟩
      (by decide) (by decide) (by decide) (by decide)
      (by decide)).2 ⟨9, none, false⟩ (by decide)⟩

/-- Claim C9: a numeric filter value is treated by `_isEmpty` as empty and
therefore as a wildcard: `_payloadPassesFilter` accepts every payload when
all filter values are numbers, and a listener registered with an
all-numeric filter under the packet's event name is always invoked. -/
theorem claim9_numeric_filter_wildcard :
    (∀ (payload : WsVal) (f : List (Nat × WsVal)),
      (∀ kv ∈ f, (kv.2).isNum = true) →
      payloadPassesFilter payload f = true) ∧
    (∀ (g : List (String × List Listener)) (m : InternalMsg)
      (transform : Bool) (e : String) (ls : List Listener) (l : Listener),
      msgEventName m = .str e → mapLookup g e = some ls → l ∈ ls →
      (∀ fv, l.filter = some fv → ∀ kv ∈ fv, (kv.2).isNum = true) →
      (notifyListenerGroup g m transform).any (fun inv =>
        inv.isDataCall && inv.invId == l.id) = true) := by
  have hpass : ∀ (payload : WsVal) (f : List (Nat × WsVal)),
      (∀ kv ∈ f, (kv.2).isNum = true) →
      payloadPassesFilter payload f = true := by
    intro payload f hnum
    rw [payloadPassesFilter, List.all_eq_true]
    intro kv hkv
    have := hnum kv hkv
    cases h2 : kv.2 with
    | num n => simp [lodashIsEmpty, h2]
    | str s => rw [h2] at this; cases this
    | arr l2 => rw [h2] at this; cases this
    | null => rw [h2] at this; cases this
    | undefined => rw [h2] at this; cases this
  refine ⟨hpass, ?_⟩
  intro g m transform e ls l hev hls hl hnum
  have hne : ls ≠ [] := by
    intro h
    rw [h] at hl
    cases hl
  have hmatch : listenerMatches m l = true := by
    rw [listenerMatches]
    cases hfl : l.filter with
    | none => rfl
    | some fv =>
      have hnum2 := hnum fv hfl
      by_cases hsnap : ((msgData m).item 0).isArr = true
      · simp only [matchesFilter, if_pos hsnap]
        obtain ⟨x, xs, hd⟩ := item0_isArr_shape _ hsnap
        rw [hd]
        have hfeq : (WsVal.arr (x :: xs)).asArr.filter (fun item =>
            payloadPassesFilter (filterTarget m item) fv) = x :: xs := by
          show (x :: xs).filter (fun item =>
            payloadPassesFilter (filterTarget m item) fv) = x :: xs
          rw [List.filter_eq_self]
          intro a _
          exact hpass _ fv hnum2
        rw [hfeq]
        simp
      · simp only [matchesFilter, if_neg hsnap]
        exact hpass _ fv hnum2
  rw [any_data_call_iff g m transform e ls l.id hev hls hne]
  exact ⟨l, hl, hmatch, rfl⟩

/-- Witness for C9: a filter holding only the numeric values 42 and 7
passes any payload, and a listener with that filter is invoked for a
packet whose payload matches none of those positions. -/
theorem claim9_numeric_filter_wildcard_witness :
    payloadPassesFilter (.arr [.str "x"]) [(0, .num 42), (2, .num 7)] = true ∧
    (notifyListenerGroup [("on", [⟨3, some [(0, .num 42), (2, .num 7)], false⟩])]
      ⟨[.num 0, .str "on", .arr [.str "x"]], none⟩ true).any
      (fun inv => inv.isDataCall && inv.invId == 3) = true :=
  ⟨(claim9_numeric_filter_wildcard).1 (.arr [.str "x"])
      [(0, .num 42), (2, .num 7)] (by decide),
   (claim9_numeric_filter_wildcard).2
      [("on", [⟨3, some [(0, .num 42), (2, .num 7)], false⟩])]
      ⟨[.num 0, .str "on", .arr [.str "x"]], none⟩ true "on"
      [⟨3, some [(0, .num 42), (2, .num 7)], false⟩]
      ⟨3, some [(0, .num 42), (2, .num 7)], false⟩
      (by decide) (by decide) (by decide)
      (fun fv hfv => by
        injection hfv with h
        rw [← h]
        decide)⟩

/-! ## ManagedCandleStore — `_updateManagedCandles` (ws2.js lines
1074-1103) -/

/-- The JS `sort((a, b) => b[0] - a[0])`: stable sort, descending by the
open-time at index 0 (a non-numeric slot would make the comparator NaN,
whose sort behaviour is unspecified; such candles do not occur and the
comparator is modelled as 0 there, keeping the order). -/
def candleKey (v : WsVal) : Int :=
  match v.item 0 with
  | .num n => n
  | _ => 0

def insertCandleDesc (x : WsVal) : List WsVal → List WsVal
  | [] => [x]
  | y :: ys =>
    if candleKey x > candleKey y then x :: y :: ys
    else y :: insertCandleDesc x ys

def sortCandlesDesc : List WsVal → List WsVal
  | [] => []
  | x :: xs => insertCandleDesc x (sortCandlesDesc xs)

/-- The `for` loop of `_updateManagedCandles` (ws2.js lines 1090-1096):
replace the first stored candle whose open-time equals the update's;
`none` when no entry matches. -/
def replaceFirstCandle (d0 : WsVal) (newc : WsVal) :
    List WsVal → Option (List WsVal)
  | [] => none
  | c :: cs =>
    if c.item 0 == d0 then some (newc :: cs)
    else
      match replaceFirstCandle d0 newc cs with
      | some cs2 => some (c :: cs2)
      | none => none

/-- `_updateManagedCandles(key, data)` (ws2.js lines 1074-1103): a
snapshot (`Array.isArray(data[0])`) replaces the whole set, sorted
descending; a single-candle update replaces the matching open-time in
place or is unshifted onto the front; an update for an unknown key is an
error. -/
def updateManagedCandles (candles : List (String × List WsVal))
    (key : String) (data : List WsVal) :
    Option String × List (String × List WsVal) :=
  if (jsIndex data 0).isArr then
    (none, mapSet candles key (sortCandlesDesc data))
  else
    match mapLookup candles key with
    | none => (some s!"recv update for unknown candles: {key}", candles)
    | some cs =>
      match replaceFirstCandle (jsIndex data 0) (.arr data) cs with
      | some cs2 => (none, mapSet candles key cs2)
      | none => (none, mapSet candles key (.arr data :: cs))

/-! ### Candle-store lemmas -/

theorem replaceFirstCandle_length (d0 newc : WsVal) :
    ∀ (cs cs2 : List WsVal), replaceFirstCandle d0 newc cs = some cs2 →
      cs2.length = cs.length := by
  intro cs
  induction cs with
  | nil => intro cs2 h; cases h
  | cons c rest ih =>
    intro cs2 h
    rw [replaceFirstCandle] at h
    by_cases hc : (c.item 0 == d0) = true
    · rw [if_pos hc] at h
      injection h with h
      subst h
      simp
    · rw [if_neg hc] at h
      cases h2 : replaceFirstCandle d0 newc rest with
      | none => rw [h2] at h; cases h
      | some cs3 =>
        rw [h2] at h
        injection h with h
        subst h
        simp [ih cs3 h2]

theorem replaceFirstCandle_none (d0 newc : WsVal) :
    ∀ cs : List WsVal, (∀ c ∈ cs, c.item 0 ≠ d0) →
      replaceFirstCandle d0 newc cs = none := by
  intro cs
  induction cs with
  | nil => intro _; rfl
  | cons c rest ih =>
    intro h
    rw [replaceFirstCandle]
    have hc : (c.item 0 == d0) = false := by
      simpa using h c (List.mem_cons_self c rest)
    rw [hc, ih (fun c2 hc2 => h c2 (List.mem_cons_of_mem c hc2))]
    simp

theorem replaceFirstCandle_decomp (d0 newc : WsVal) :
    ∀ (pre : List WsVal) (c : WsVal) (post : List WsVal),
      (∀ c2 ∈ pre, c2.item 0 ≠ d0) → c.item 0 = d0 →
      replaceFirstCandle d0 newc (pre ++ c :: post) =
        some (pre ++ newc :: post) := by
  intro pre
  induction pre with
  | nil =>
    intro c post _ hc
    rw [List.nil_append, List.nil_append, replaceFirstCandle,
      if_pos (beq_iff_eq.mpr hc)]
  | cons p rest ih =>
    intro c post hpre hc
    have hp : (p.item 0 == d0) = false := by
      simpa using hpre p (List.mem_cons_self p rest)
    rw [List.cons_append, List.cons_append, replaceFirstCandle, hp,
      ih c post (fun c2 h2 => hpre c2 (List.mem_cons_of_mem p h2)) hc]
    simp

/-- Claim C8: for a managed candle set and a single-candle update (data
whose first slot is not an array): when the set decomposes as
`pre ++ c :: post` with `c` the first candle matching the update's
open-time, the stored set becomes exactly `pre ++ [update] ++ post` — the
match replaced in place, everything else untouched, the length unchanged,
and no error; with no match the candle is inserted at the front, leaving
the remainder untouched (length + 1, tail equal to the old set); an
update for an unknown key is an error and no set is created. -/
theorem claim8_candle_update (candles : List (String × List WsVal))
    (key : String) (data : List WsVal) (cs : List WsVal)
    (hsingle : (jsIndex data 0).isArr = false) :
    (mapLookup candles key = some cs →
      ∀ (pre : List WsVal) (c : WsVal) (post : List WsVal),
      cs = pre ++ c :: post →
      (∀ c2 ∈ pre, c2.item 0 ≠ jsIndex data 0) →
      c.item 0 = jsIndex data 0 →
      (updateManagedCandles candles key data).1 = none ∧
      mapLookup (updateManagedCandles candles key data).2 key =
        some (pre ++ WsVal.arr data :: post) ∧
      (pre ++ WsVal.arr data :: post).length = cs.length) ∧
    (mapLookup candles key = some cs →
      (∀ c ∈ cs, c.item 0 ≠ jsIndex data 0) →
      (updateManagedCandles candles key data).1 = none ∧
      mapLookup (updateManagedCandles candles key data).2 key =
        some (.arr data :: cs)) ∧
    (mapLookup candles key = none →
      (∃ e, (updateManagedCandles candles key data).1 = some e) ∧
      (updateManagedCandles candles key data).2 = candles) := by
  refine ⟨fun hlook pre c post hcs hpre hc => ?_,
    fun hlook hnomatch => ?_, fun hlook => ?_⟩
  · have hrep : replaceFirstCandle (jsIndex data 0) (.arr data) cs =
        some (pre ++ WsVal.arr data :: post) := by
      rw [hcs]
      exact replaceFirstCandle_decomp _ _ pre c post hpre hc
    rw [updateManagedCandles, if_neg (by simp [hsingle])]
    simp only [hlook, hrep]
    refine ⟨trivial, mapLookup_set_self candles key _, ?_⟩
    rw [hcs]
    simp
  · have hnone :=
      replaceFirstCandle_none (jsIndex data 0) (.arr data) cs hnomatch
    rw [updateManagedCandles, if_neg (by simp [hsingle])]
    simp only [hlook, hnone]
    exact ⟨trivial, mapLookup_set_self candles key _⟩
  · rw [updateManagedCandles, if_neg (by simp [hsingle])]
    simp only [hlook]
    exact ⟨⟨_, rfl⟩, trivial⟩

/-- Witness for C8: the set for `trade:1m:tBTCUSD` holds candles with
open-times 200 and 100; an update with open-time 100 replaces exactly the
second entry in place, yielding `[candle 200, update]` with length 2. -/
theorem claim8_candle_update_witness :
    (jsIndex [WsVal.num 100, WsVal.num 7] 0).isArr = false ∧
    (updateManagedCandles [("trade:1m:tBTCUSD",
        [WsVal.arr [.num 200, .num 1], WsVal.arr [.num 100, .num 2]])]
      "trade:1m:tBTCUSD" [WsVal.num 100, WsVal.num 7]).1 = none ∧
    mapLookup (updateManagedCandles [("trade:1m:tBTCUSD",
        [WsVal.arr [.num 200, .num 1], WsVal.arr [.num 100, .num 2]])]
      "trade:1m:tBTCUSD" [WsVal.num 100, WsVal.num 7]).2 "trade:1m:tBTCUSD" =
      some [WsVal.arr [.num 200, .num 1],
        WsVal.arr [.num 100, .num 7]] ∧
    ([WsVal.arr [.num 200, .num 1],
      WsVal.arr [.num 100, .num 7]] : List WsVal).length =
      ([WsVal.arr [.num 200, .num 1],
        WsVal.arr [.num 100, .num 2]] : List WsVal).length := by
  have h := (claim8_candle_update [("trade:1m:tBTCUSD",
      [WsVal.arr [.num 200, .num 1], WsVal.arr [.num 100, .num 2]])]
    "trade:1m:tBTCUSD" [WsVal.num 100, WsVal.num 7]
    [WsVal.arr [.num 200, .num 1], WsVal.arr [.num 100, .num 2]]
    (by decide)).1 (by decide) [WsVal.arr [.num 200, .num 1]]
    (WsVal.arr [.num 100, .num 2]) [] (by decide) (by decide) (by decide)
  exact ⟨by decide, h.1, h.2.1, h.2.2⟩

/-! ## ConnectionManager — `auth()` (ws2.js lines 354-387) and
`reconnectAfterClose()` (lines 412-422) -/

/-- The connection fields `auth()` and `reconnectAfterClose()` read or
write. -/
structure AuthState where
  isOpen : Bool
  isAuthenticated : Bool
  authOnReconnect : Bool
  isReconnecting : Bool
  wsExists : Bool
  sentAuth : Bool
deriving DecidableEq

/-- The synchronous part of `auth(calc, dms)` (ws2.js lines 354-387):
`this._authOnReconnect = true` runs FIRST (line 355), before the
not-open and already-authenticated checks; on success the auth packet is
sent (nonce, signature and payload construction are external to this
model). -/
def auth (st : AuthState) : Except String Unit × AuthState :=
  let st1 := { st with authOnReconnect := true }
  if !st1.isOpen then
    (.error "not open", st1)
  else if st1.isAuthenticated then
    (.error "already authenticated", st1)
  else
    (.ok (), { st1 with sentAuth := true })

inductive ReconnectAction where
  | delegateReconnect
  | openConn
  | authenticate
deriving DecidableEq

/-- The control flow of `reconnectAfterClose()` (ws2.js lines 412-422):
delegate back to `reconnect()` unless a reconnect was requested and no
socket or open state exists; otherwise open, then re-authenticate iff
`_authOnReconnect` is set. -/
def reconnectAfterCloseActions (st : AuthState) : List ReconnectAction :=
  if !st.isReconnecting || st.wsExists || st.isOpen then
    [.delegateReconnect]
  else if st.authOnReconnect then
    [.openConn, .authenticate]
  else
    [.openConn]

/-- Claim C10: `auth()` sets the authenticate-after-reconnect flag before
its preconditions are checked, so the flag is true afterwards even when
`auth()` throws (connection not open, or already authenticated); after
such a failed call, a subsequent reconnect-after-close from a closed,
socket-free, reconnect-requested state re-authenticates. -/
theorem claim10_auth_flag_set_before_checks (st : AuthState) :
    ((auth st).2.authOnReconnect = true) ∧
    (st.isOpen = false → (auth st).1 = .error "not open") ∧
    (st.isOpen = true → st.isAuthenticated = true →
      (auth st).1 = .error "already authenticated") ∧
    (st.isOpen = false → st.wsExists = false → st.isReconnecting = true →
      reconnectAfterCloseActions (auth st).2 =
        [.openConn, .authenticate]) := by
  obtain ⟨o, a, r, rc, w, sa⟩ := st
  refine ⟨?_, fun h1 => ?_, fun h1 h2 => ?_, fun h1 h2 h3 => ?_⟩
  · cases o <;> cases a <;> simp [auth]
  · subst h1
    simp [auth]
  · subst h1
    subst h2
    simp [auth]
  · subst h1
    subst h2
    subst h3
    cases a <;> simp [auth, reconnectAfterCloseActions]

/-- Witness for C10: from a closed, unauthenticated, reconnect-requested
state, `auth()` fails with "not open" yet the flag is set and the next
reconnect-after-close authenticates. -/
theorem claim10_auth_flag_witness :
    ((auth ⟨false, false, false, true, false, false⟩).2.authOnReconnect = true) ∧
    (auth ⟨false, false, false, true, false, false⟩).1 = .error "not open" ∧
    reconnectAfterCloseActions
      (auth ⟨false, false, false, true, false, false⟩).2 =
      [.openConn, .authenticate] :=
  ⟨(claim10_auth_flag_set_before_checks ⟨false, false, false, true, false, false⟩).1,
   (claim10_auth_flag_set_before_checks ⟨false, false, false, true, false, false⟩).2.1
     (by decide),
   (claim10_auth_flag_set_before_checks ⟨false, false, false, true, false, false⟩).2.2.2
     (by decide) (by decide) (by decide)⟩

end WSv2
